import Mathlib

/-!
Verification of the narration timing and audio-assembly engine of the
reel-gen repository (services/tts-service.ts, services/video-service.ts
and the montage builder).  JavaScript strings are embedded as lists of
characters, machine floats as rationals, and the fallible ffmpeg
subprocess calls as an explicit per-step success oracle threaded through
the control flow that the source wraps in try/catch.
-/

namespace ReelGen

/-- JavaScript strings are modelled as lists of characters. -/
abbrev Str := List Char

/-- The whitespace class used by the regexes in tts-service.ts
(the ASCII part of the JavaScript regex whitespace class). -/
def isWs (c : Char) : Bool :=
  c = ' ' || c = '\t' || c = '\n' || c = '\r' || c = '\x0b' || c = '\x0c'

/-- Sentence-terminal punctuation, the regex class [.!?] of
tts-service.ts. -/
def isTerm (c : Char) : Bool :=
  c = '.' || c = '!' || c = '?'

/-- The regex class [A-Z] used by the sentence-splitting lookahead. -/
def isUpperAZ (c : Char) : Bool :=
  'A' ≤ c && c ≤ 'Z'

/-- Worker for jsSplitWs.  Walks the string keeping the current word
accumulator (reversed) and a flag recording whether the previous
character was whitespace, so that a whitespace run produces a single
break, exactly as text.split on a whitespace-run regex does in
JavaScript (boundary runs yield empty pieces). -/
def jsSplitWsAux : Str → Str → Bool → List Str
  | [], acc, _ => [acc.reverse]
  | c :: rest, acc, prevWs =>
    if isWs c then
      if prevWs then jsSplitWsAux rest [] true
      else acc.reverse :: jsSplitWsAux rest [] true
    else jsSplitWsAux rest (c :: acc) false

/-- JavaScript text.split on the regex of one-or-more whitespace
characters, as used throughout tts-service.ts to count words. -/
def jsSplitWs (s : Str) : List Str := jsSplitWsAux s [] false

/-- text.split(whitespace regex).length, the word count used by
tts-service.ts. -/
def wordCount (s : Str) : Nat := (jsSplitWs s).length

/-- JavaScript Array.prototype.join with the given separator. -/
def jsJoin (sep : Str) : List Str → Str
  | [] => []
  | [w] => w
  | w :: ws => w ++ sep ++ jsJoin sep ws

/-- JavaScript String.prototype.trim (both ends, whitespace class). -/
def trimStr (s : Str) : Str :=
  ((s.dropWhile isWs).reverse.dropWhile isWs).reverse

/-- The shared truncation idiom of tts-service.ts: split into words and,
when over the budget, keep only the first maxWords words rejoined with
single spaces (resultWords.slice(0, maxWords).join(" ")). -/
def truncWords (r : Str) (maxWords : Nat) : Str :=
  let resultWords := jsSplitWs r
  if resultWords.length > maxWords then
    jsJoin [' '] (resultWords.take maxWords)
  else r

/-- Fuel-indexed worker for the global regex replace of
splitIntoSentences in tts-service.ts: a terminal punctuation mark, then
a greedy whitespace run, with an uppercase lookahead, is replaced by the
mark followed by a bar separator (the whitespace is consumed, the
capital letter is not).  The fuel starts at the string length and never
runs out, since the continuation is always shorter than the fuel. -/
def sentSepAux : Nat → Str → Str
  | 0, s => s
  | _ + 1, [] => []
  | fuel + 1, c :: rest =>
    if isTerm c then
      match rest.dropWhile isWs with
      | d :: ds =>
        if isUpperAZ d then c :: '|' :: sentSepAux fuel (d :: ds)
        else c :: sentSepAux fuel rest
      | [] => c :: sentSepAux fuel rest
    else c :: sentSepAux fuel rest

/-- splitIntoSentences of tts-service.ts: insert a bar after every
sentence-ending mark that is followed (across whitespace) by a capital
letter, split on the bars, trim each piece and drop empty pieces. -/
def splitIntoSentences (text : Str) : List Str :=
  (((sentSepAux text.length text).splitOn '|').map trimStr).filter
    (fun s => !s.isEmpty)

/-- createVeryShortSummary of tts-service.ts: first sentence, plus the
last sentence when both fit the budget, with word-level truncation as a
fallback. -/
def createVeryShortSummary (sentences : List Str) (maxWords : Nat) : Str :=
  let selectedSentences : List Str :=
    if sentences.length > 0 then [sentences.headD []] else []
  if sentences.length > 1 then
    let firstSentenceWords := wordCount (sentences.headD [])
    let lastSentenceWords := wordCount (sentences.getLastD [])
    if firstSentenceWords + lastSentenceWords ≤ maxWords then
      truncWords (jsJoin [' '] (selectedSentences ++ [sentences.getLastD []]))
        maxWords
    else
      jsJoin [' '] ((jsSplitWs (sentences.headD [])).take maxWords)
  else
    truncWords (jsJoin [' '] selectedSentences) maxWords

/-- formatScript replace pass one: every terminal mark plus following
whitespace run becomes the mark plus a single space. -/
def fmtPunctAux : Nat → Str → Str
  | 0, s => s
  | _ + 1, [] => []
  | fuel + 1, c :: rest =>
    if isTerm c then c :: ' ' :: fmtPunctAux fuel (rest.dropWhile isWs)
    else c :: fmtPunctAux fuel rest

/-- formatScript replace pass two: every whitespace run becomes a single
space. -/
def fmtSpaceAux : Nat → Str → Str
  | 0, s => s
  | _ + 1, [] => []
  | fuel + 1, c :: rest =>
    if isWs c then ' ' :: fmtSpaceAux fuel (rest.dropWhile isWs)
    else c :: fmtSpaceAux fuel rest

/-- formatScript of tts-service.ts: trim the sentences, join with a
period and space, normalize punctuation spacing and whitespace runs,
and trim the result. -/
def formatScript (sentences : List Str) : Str :=
  let joined := jsJoin ['.', ' '] (sentences.map trimStr)
  let pass1 := fmtPunctAux joined.length joined
  trimStr (fmtSpaceAux pass1.length pass1)

/-- The sentence-accumulation loop of extractDistributedKeyContent: add
whole sentences while the running word count stays within the budget; an
inl result is the early word-truncation return taken when the very first
candidate sentence alone overflows the budget. -/
def accumSentences (maxWords : Nat) : List Str → Nat → List Str →
    Sum Str (List Str)
  | [], _, acc => Sum.inr acc
  | s :: rest, totalWords, acc =>
    let sentenceWords := wordCount s
    if totalWords + sentenceWords > maxWords then
      if acc.isEmpty then Sum.inl (jsJoin [' '] ((jsSplitWs s).take maxWords))
      else Sum.inr acc
    else if totalWords + sentenceWords = maxWords then Sum.inr (acc ++ [s])
    else accumSentences maxWords rest (totalWords + sentenceWords) (acc ++ [s])

/-- extractDistributedKeyContent of tts-service.ts: take roughly a
quarter of the sentences from the beginning, a window around the middle
and the end, then accumulate them within the word budget and format.
Math.floor(n * 0.25) on the exactly representable 0.25 is the natural
division n / 4, and slice with a negative start is a suffix. -/
def extractDistributedKeyContent (sentences : List Str) (maxWords : Nat) :
    Str :=
  if sentences.length ≤ 3 then
    truncWords (jsJoin [' '] sentences) maxWords
  else
    let totalSentences := sentences.length
    let beginningCount := max 1 (totalSentences / 4)
    let endCount := max 1 (totalSentences / 4)
    let middleCount := max 1 (totalSentences / 4)
    let beginningSection := sentences.take beginningCount
    let endSection := sentences.drop (totalSentences - endCount)
    let middleIndex := totalSentences / 2
    let halfMiddleCount := middleCount / 2
    let hi := min totalSentences (middleIndex + halfMiddleCount + middleCount % 2)
    let middleSection := (sentences.take hi).drop (middleIndex - halfMiddleCount)
    let combinedSentences := beginningSection ++ middleSection ++ endSection
    match accumSentences maxWords combinedSentences 0 [] with
    | Sum.inl early => early
    | Sum.inr finalSentences =>
      if finalSentences.isEmpty ∧ sentences.length > 0 then
        jsJoin [' '] ((jsSplitWs (sentences.headD [])).take maxWords)
      else formatScript finalSentences

/-- legacyCreateVoiceoverScript of tts-service.ts, the rule-based
distiller: identity short-circuit, very-short summary for budgets of at
most twenty words, otherwise distributed extraction followed by the
always-enforced final word-count check. -/
def legacyCreateVoiceoverScript (transcript : Str) (maxWords : Nat) : Str :=
  let words := jsSplitWs transcript
  if words.length ≤ maxWords then transcript
  else
    let sentences := splitIntoSentences transcript
    if maxWords ≤ 20 then createVeryShortSummary sentences maxWords
    else truncWords (extractDistributedKeyContent sentences maxWords) maxWords

/-- Whether a string ends in sentence-terminal punctuation. -/
def endsTerm (s : Str) : Bool :=
  match s.getLast? with
  | some c => isTerm c
  | none => false

/-- Whether a string contains sentence-terminal punctuation. -/
def containsTerm (s : Str) : Bool := s.any isTerm

/-- JavaScript Math.abs on the rational embedding of doubles. -/
def mathAbs (q : ℚ) : ℚ := if q < 0 then -q else q

/-- The atempo-stage decomposition loop of adjustVoiceoverDuration in
tts-service.ts for extreme speed-ups: while the remaining factor exceeds
one, emit a stage of Math.min(remainingFactor, 2.0) and divide it out.
The loop is expressed with fuel; any fuel with
remainingFactor at most two to the fuel suffices. -/
def buildAtempoChain : Nat → ℚ → List ℚ
  | 0, _ => []
  | fuel + 1, remainingFactor =>
    if 1 < remainingFactor then
      min remainingFactor 2 ::
        buildAtempoChain fuel (remainingFactor / min remainingFactor 2)
    else []

/-- Math.max(0.5, Math.min(tempoFactor, 2.0)), the clamped factor of the
inner-catch fallback of adjustVoiceoverDuration. -/
def clampTempo (tempoFactor : ℚ) : ℚ := max (1 / 2) (min tempoFactor 2)

/-- Symbolic audio contents: what asset a sequence of ffmpeg
invocations (atempo, silence generation, concatenation) leaves at the
output path, with original standing for a byte copy of the input. -/
inductive Audio where
  | original : Audio
  | silence (duration : ℚ) : Audio
  | concatA (a b : Audio) : Audio
  | atempo (factor : ℚ) (a : Audio) : Audio
  | atempoChain (factors : List ℚ) (a : Audio) : Audio
deriving DecidableEq

/-- adjustVoiceoverDuration of tts-service.ts as a function of a success
oracle env for its ffmpeg invocations, returning the symbolic content of
the output path.  Oracle slots: in the single-stage branches slot 0 is
the only spawn; in the extreme slow-down branch slots 0, 1, 2 are the
silence, concat and tempo spawns and slot 3 is the inner-catch clamped
fallback spawn; in the extreme speed-up branch slot 0 is the chained
spawn and slot 1 is the inner-catch fallback spawn.  A false slot is the
spawn rejecting, routed through the inner and outer catch exactly as in
the source; the outer catch copies the original, so the function is
total and never propagates a failure. -/
def adjustVoiceoverDuration (env : Nat → Bool) (fuel : Nat)
    (threshold currentDuration targetDuration : ℚ) : Audio :=
  if mathAbs (currentDuration - targetDuration) < threshold then
    Audio.original
  else
    let tempoFactor := currentDuration / targetDuration
    if 9 / 10 ≤ tempoFactor ∧ tempoFactor ≤ 11 / 10 then
      if env 0 then Audio.atempo tempoFactor Audio.original
      else Audio.original
    else if 1 / 2 ≤ tempoFactor ∧ tempoFactor ≤ 2 then
      if env 0 then Audio.atempo tempoFactor Audio.original
      else Audio.original
    else if tempoFactor < 1 / 2 then
      if env 0 && env 1 && env 2 then
        Audio.atempo
          ((currentDuration + targetDuration * (1 / 2)) / targetDuration)
          (Audio.concatA Audio.original
            (Audio.silence (targetDuration * (1 / 2))))
      else if env 3 then Audio.atempo (clampTempo tempoFactor) Audio.original
      else Audio.original
    else
      if env 0 then
        Audio.atempoChain (buildAtempoChain fuel tempoFactor) Audio.original
      else if env 1 then Audio.atempo (clampTempo tempoFactor) Audio.original
      else Audio.original

/-- The duration option of the ffmpeg amix filter. -/
inductive AmixDurationMode where
  | longest
  | shortest
  | first
deriving DecidableEq

/-- The five audio mixing topologies of the montage builder. -/
inductive MixTopology where
  | narrationSoundtrackMix (narrationVolume soundtrackVolume : ℚ)
      (mode : AmixDurationMode)
  | narrationOnly (volume : ℚ)
  | soundtrackOnly (volume : ℚ)
  | originalAudioPassThrough
  | silentVideoOnly
deriving DecidableEq

/-- The audio-branch selection of createVideoMontage: narration plus
soundtrack are mixed with amix duration longest; narration alone or
soundtrack alone get a volume filter; with neither, the original audio
is mapped through unless removeAudio is set, in which case only the
video stream is mapped. -/
def selectMixTopology (hasNarration hasSoundtrack removeAudio : Bool)
    (narrationVolume soundtrackVolume : ℚ) : MixTopology :=
  if hasNarration then
    if !hasSoundtrack then MixTopology.narrationOnly narrationVolume
    else
      MixTopology.narrationSoundtrackMix narrationVolume soundtrackVolume
        AmixDurationMode.longest
  else if hasSoundtrack then MixTopology.soundtrackOnly soundtrackVolume
  else if !removeAudio then MixTopology.originalAudioPassThrough
  else MixTopology.silentVideoOnly

/-- Output duration of the ffmpeg amix filter per its documented
duration option: longest is the maximum of the input durations. -/
def amixOutputDuration (mode : AmixDurationMode)
    (narrationDuration soundtrackDuration : ℚ) : ℚ :=
  match mode with
  | AmixDurationMode.longest => max narrationDuration soundtrackDuration
  | AmixDurationMode.shortest => min narrationDuration soundtrackDuration
  | AmixDurationMode.first => narrationDuration

/-- The configuration slice read by calculateTargetWordCount.  The
speaking-rate table and the scalar defaults live in config.ts; the table
is modelled as a partial map from voice-type names. -/
structure TTSConfig where
  speakingRates : String → Option ℚ
  defaultSpeakingRate : ℚ
  wordCountBufferFactor : ℚ

/-- config.speakingRates[voiceType] || config.defaultSpeakingRate: the
JavaScript or-fallback fires on a missing entry and on a zero (falsy)
entry. -/
def lookupSpeakingRate (cfg : TTSConfig) (voiceType : String) : ℚ :=
  match cfg.speakingRates voiceType with
  | some r => if r = 0 then cfg.defaultSpeakingRate else r
  | none => cfg.defaultSpeakingRate

/-- calculateTargetWordCount of tts-service.ts: word budget from
duration, per-voice speaking rate and a duration-dependent buffer
factor, floored to an integer. -/
def calculateTargetWordCount (cfg : TTSConfig) (durationSeconds : ℚ)
    (voiceType : String) : ℤ :=
  let wordsPerSecond := lookupSpeakingRate cfg voiceType
  let bufferFactor :=
    if durationSeconds ≤ 10 then (95 : ℚ) / 100
    else if durationSeconds > 30 then (99 : ℚ) / 100
    else cfg.wordCountBufferFactor
  ⌊durationSeconds * wordsPerSecond * bufferFactor⌋

/-- The result of a child-process exec call: error flag, captured
standard output and captured standard error. -/
structure ExecResult where
  err : Bool
  stdout : Str
  stderr : Str

/-- The regex class [0-9]. -/
def isDigitCh (c : Char) : Bool := '0' ≤ c && c ≤ '9'

/-- Decimal value of a digit string. -/
def digitsToNat (l : Str) : Nat :=
  l.foldl (fun a c => a * 10 + (c.toNat - 48)) 0

/-- JavaScript parseFloat restricted to plain decimal numerals (an
optional sign, digits, an optional point and fraction), which is the
only shape the duration probe ever receives; trailing garbage is
ignored and a string with no leading numeral parses to NaN, modelled as
none. -/
def jsParseFloat (s : Str) : Option ℚ :=
  let signed : ℚ × Str :=
    match s with
    | '-' :: r => (-1, r)
    | '+' :: r => (1, r)
    | _ => (1, s)
  let sign := signed.1
  let s1 := signed.2
  let ip := s1.takeWhile isDigitCh
  let r1 := s1.dropWhile isDigitCh
  match r1 with
  | '.' :: r2 =>
    let fp := r2.takeWhile isDigitCh
    if ip.isEmpty && fp.isEmpty then none
    else
      some (sign * ((digitsToNat ip : ℚ) + (digitsToNat fp : ℚ) / 10 ^ fp.length))
  | _ => if ip.isEmpty then none else some (sign * (digitsToNat ip : ℚ))

/-- getAudioDuration of tts-service.ts as a function of the exec result:
an error or any stderr output yields null, a NaN parse of the trimmed
stdout yields null, and otherwise the parsed duration is returned.  The
promise only ever resolves (the executor calls resolve on every path),
so the embedding is a total function into an option. -/
def getAudioDuration (r : ExecResult) : Option ℚ :=
  if r.err || !r.stderr.isEmpty then none
  else
    match jsParseFloat (trimStr r.stdout) with
    | none => none
    | some duration => some duration

/-- Events that can settle (or fail to settle) the promise returned by a
spawn wrapper: process close with an exit code, a process error, or the
firing of a registered kill timer. -/
inductive FFmpegEvent where
  | close (code : Int)
  | procError
  | timerFire
deriving DecidableEq

/-- How a spawn wrapper settles its promise. -/
inductive SpawnOutcome where
  | resolve
  | reject
deriving DecidableEq

/-- A spawn wrapper: the wall-clock timeout it registers (none when no
timer is installed) and how each event settles the promise (none when
the event leaves the promise pending). -/
structure SpawnWrapper where
  timeoutMs : Option Nat
  settle : FFmpegEvent → Option SpawnOutcome

/-- spawnFFmpeg of tts-service.ts: resolve on close with code zero,
reject on a nonzero code or a process error; no setTimeout is ever
registered, so a timer event does not exist for it and the promise can
stay pending forever. -/
def ttsSpawnFFmpeg : SpawnWrapper where
  timeoutMs := none
  settle
    | FFmpegEvent.close 0 => some SpawnOutcome.resolve
    | FFmpegEvent.close _ => some SpawnOutcome.reject
    | FFmpegEvent.procError => some SpawnOutcome.reject
    | FFmpegEvent.timerFire => none

/-- spawnFFmpeg of video-service.ts (and of the montage builder): same
close and error handling, plus a 120000 millisecond setTimeout that
kills the process and rejects the promise. -/
def videoSpawnFFmpeg : SpawnWrapper where
  timeoutMs := some 120000
  settle
    | FFmpegEvent.close 0 => some SpawnOutcome.resolve
    | FFmpegEvent.close _ => some SpawnOutcome.reject
    | FFmpegEvent.procError => some SpawnOutcome.reject
    | FFmpegEvent.timerFire => some SpawnOutcome.reject

/-- The spawn wrappers through which every media-transform subprocess
invocation of the pipeline goes: the audio transforms of the Duration
Matcher use the tts-service wrapper, the video assembly uses the
video-service wrapper. -/
def mediaTransformWrappers : List SpawnWrapper :=
  [ttsSpawnFFmpeg, videoSpawnFFmpeg]

/-- A transcript containing a terminal mark that is not at the end. -/
def exTranscript : Str := "Hello. world".toList

/-- A transcript ending in a terminal mark. -/
def exEndsTermStr : Str := "Hello.".toList

/-- A transcript whose first sentence alone overflows a one-word
budget. -/
def exLongSentence : Str := "hello world.".toList

/-- Success oracle under which the first ffmpeg spawn fails and every
later one succeeds. -/
def chainFailEnv : Nat → Bool := fun n => n != 0

/-- Success oracle under which every ffmpeg spawn succeeds. -/
def allOkEnv : Nat → Bool := fun _ => true

/-- A concrete configuration with the documented calibration values:
2.9 words per second for the openai alloy voice, 2.8 default, buffer
factor 0.98. -/
def exampleTTSConfig : TTSConfig where
  speakingRates := fun v => if v = "openai_alloy" then some (29 / 10) else none
  defaultSpeakingRate := 28 / 10
  wordCountBufferFactor := 98 / 100

theorem jsSplitWsAux_ne_nil (s : Str) (acc : Str) (p : Bool) :
    jsSplitWsAux s acc p ≠ [] := by
  induction s generalizing acc p with
  | nil => simp [jsSplitWsAux]
  | cons c rest ih =>
    simp only [jsSplitWsAux]
    by_cases hc : isWs c <;> by_cases hp : p <;> simp [hc, hp, ih]

theorem jsSplitWs_length_pos (s : Str) : 1 ≤ (jsSplitWs s).length := by
  have h := jsSplitWsAux_ne_nil s [] false
  unfold jsSplitWs
  cases hE : jsSplitWsAux s [] false with
  | nil => exact absurd hE h
  | cons a l => simp

theorem jsSplitWsAux_wsFree (s : Str) (acc : Str) (p : Bool)
    (hacc : ∀ c ∈ acc, isWs c = false) :
    ∀ w ∈ jsSplitWsAux s acc p, ∀ c ∈ w, isWs c = false := by
  induction s generalizing acc p with
  | nil =>
    intro w hw c hc
    simp only [jsSplitWsAux, List.mem_singleton] at hw
    subst hw
    exact hacc c (List.mem_reverse.mp hc)
  | cons d rest ih =>
    intro w hw c hc
    cases hd : isWs d with
    | true =>
      cases p with
      | true =>
        simp only [jsSplitWsAux, hd, if_true] at hw
        exact ih [] true (by simp) w hw c hc
      | false =>
        simp only [jsSplitWsAux, hd] at hw
        simp only [Bool.false_eq_true, if_false, if_true, List.mem_cons] at hw
        rcases hw with hw | hw
        · subst hw
          exact hacc c (List.mem_reverse.mp hc)
        · exact ih [] true (by simp) w hw c hc
    | false =>
      simp only [jsSplitWsAux, hd, Bool.false_eq_true, if_false] at hw
      refine ih (d :: acc) false ?_ w hw c hc
      intro e he
      rcases List.mem_cons.mp he with he | he
      · subst he
        exact hd
      · exact hacc e he

theorem jsSplitWs_wsFree (s : Str) :
    ∀ w ∈ jsSplitWs s, ∀ c ∈ w, isWs c = false :=
  jsSplitWsAux_wsFree s [] false (by simp)

theorem jsSplitWsAux_length_le (s : Str) (acc : Str) (p : Bool) :
    (jsSplitWsAux s acc p).length ≤ 1 + s.countP isWs := by
  induction s generalizing acc p with
  | nil => simp [jsSplitWsAux]
  | cons c rest ih =>
    cases hc : isWs c with
    | true =>
      cases p with
      | true =>
        simp only [jsSplitWsAux, hc, if_true, List.countP_cons]
        have := ih [] true
        omega
      | false =>
        simp only [jsSplitWsAux, hc, Bool.false_eq_true, if_true, if_false,
          List.countP_cons, List.length_cons]
        have := ih [] true
        omega
    | false =>
      simp only [jsSplitWsAux, hc, Bool.false_eq_true, if_false, List.countP_cons]
      have := ih (c :: acc) false
      omega

/-- Joining whitespace-free pieces with single spaces introduces at most
one whitespace character per gap. -/
theorem countP_jsJoin_le (l : List Str)
    (hl : ∀ w ∈ l, ∀ c ∈ w, isWs c = false) :
    (jsJoin [' '] l).countP isWs ≤ l.length - 1 := by
  induction l with
  | nil => simp [jsJoin]
  | cons w ws ih =>
    cases ws with
    | nil =>
      have hw : w.countP isWs = 0 := by
        rw [List.countP_eq_zero]
        intro c hc
        simpa using hl w (by simp) c hc
      simp [jsJoin, hw]
    | cons x xs =>
      have hw : w.countP isWs = 0 := by
        rw [List.countP_eq_zero]
        intro c hc
        simpa using hl w (by simp) c hc
      have hxs : (jsJoin [' '] (x :: xs)).countP isWs ≤ (x :: xs).length - 1 := by
        refine ih ?_
        intro u hu c hc
        exact hl u (List.mem_cons_of_mem w hu) c hc
      have hws : isWs ' ' = true := by decide
      simp only [jsJoin, List.countP_append, hw, List.countP_cons, List.countP_nil,
        hws, if_true, List.length_cons]
      simp only [List.length_cons] at hxs
      omega

/-- Core budget lemma: keeping the first k pieces of a whitespace split
and rejoining them with spaces yields a string of at most k words. -/
theorem wordCount_join_take_le (s : Str) (k : Nat) (hk : 1 ≤ k) :
    wordCount (jsJoin [' '] ((jsSplitWs s).take k)) ≤ k := by
  set l := (jsSplitWs s).take k with hl
  have hfree : ∀ w ∈ l, ∀ c ∈ w, isWs c = false := by
    intro w hw
    exact jsSplitWs_wsFree s w (List.mem_of_mem_take hw)
  have hlen : l.length = min k (jsSplitWs s).length := by
    simp [hl]
  have hpos : 1 ≤ l.length := by
    have := jsSplitWs_length_pos s
    omega
  have h1 : wordCount (jsJoin [' '] l) ≤ 1 + (jsJoin [' '] l).countP isWs :=
    jsSplitWsAux_length_le _ [] false
  have h2 : (jsJoin [' '] l).countP isWs ≤ l.length - 1 :=
    countP_jsJoin_le l hfree
  have h3 : l.length ≤ k := by omega
  omega

/-- The truncation idiom never exceeds the word budget (for a positive
budget). -/
theorem wordCount_truncWords_le (r : Str) (k : Nat) (hk : 1 ≤ k) :
    wordCount (truncWords r k) ≤ k := by
  unfold truncWords
  by_cases h : (jsSplitWs r).length > k
  · simpa [h] using wordCount_join_take_le r k hk
  · simpa [h, wordCount] using Nat.le_of_not_lt h

/-- Every return path of the very-short summary respects the budget. -/
theorem wordCount_createVeryShortSummary_le (sentences : List Str) (k : Nat)
    (hk : 1 ≤ k) :
    wordCount (createVeryShortSummary sentences k) ≤ k := by
  unfold createVeryShortSummary
  by_cases h1 : sentences.length > 1
  · simp only [h1, if_true]
    by_cases h2 :
        wordCount (sentences.headD []) + wordCount (sentences.getLastD []) ≤ k
    · simp only [h2, if_true]
      exact wordCount_truncWords_le _ k hk
    · simp only [h2, if_false]
      exact wordCount_join_take_le _ k hk
  · simp only [h1, if_false]
    exact wordCount_truncWords_le _ k hk

/-- The identity short-circuit of the rule-based distiller. -/
theorem legacy_identity_of_le (transcript : Str) (k : Nat)
    (h : (jsSplitWs transcript).length ≤ k) :
    legacyCreateVoiceoverScript transcript k = transcript := by
  unfold legacyCreateVoiceoverScript
  simp [h]

/-- C3.  For every source text and every positive word budget, the
rule-based distiller legacyCreateVoiceoverScript returns a script whose
whitespace-split word count is at most the budget, on every path:
short-circuit, very-short summary, or distributed extraction followed by
the final check. -/
theorem distill_wordCount_le (transcript : Str) (k : Nat) (hk : 1 ≤ k) :
    wordCount (legacyCreateVoiceoverScript transcript k) ≤ k := by
  unfold legacyCreateVoiceoverScript
  by_cases h1 : (jsSplitWs transcript).length ≤ k
  · simp only [h1, if_true]
    exact h1
  · simp only [h1, if_false]
    by_cases h2 : k ≤ 20
    · simp only [h2, if_true]
      exact wordCount_createVeryShortSummary_le _ k hk
    · simp only [h2, if_false]
      exact wordCount_truncWords_le _ k hk

/-- Witness for C3 at a transcript of five hundred characters worth of
content reduced to one word. -/
theorem distill_wordCount_le_witness :
    1 ≤ 1 ∧ wordCount (legacyCreateVoiceoverScript exLongSentence 1) ≤ 1 :=
  ⟨le_refl 1, distill_wordCount_le exLongSentence 1 (le_refl 1)⟩

/-- C4.  Whenever the whitespace-split word count of the source text is
at most the budget, the rule-based distiller returns the source text
unchanged. -/
theorem distill_identity_shortCircuit (transcript : Str) (k : Nat)
    (h : wordCount transcript ≤ k) :
    legacyCreateVoiceoverScript transcript k = transcript :=
  legacy_identity_of_le transcript k h

/-- Witness for C4 at a two-word transcript and a budget of five. -/
theorem distill_identity_shortCircuit_witness :
    wordCount exTranscript ≤ 5 ∧
      legacyCreateVoiceoverScript exTranscript 5 = exTranscript :=
  ⟨by decide, distill_identity_shortCircuit exTranscript 5 (by decide)⟩

/-- C5 counterexample.  The transcript contains a terminal mark and the
budget is positive, yet the distilled output (the short-circuited
transcript itself) does not end in terminal punctuation. -/
theorem distill_endsTerm_counterexample :
    containsTerm exTranscript = true ∧
    1 ≤ 5 ∧
    endsTerm (legacyCreateVoiceoverScript exTranscript 5) = false := by
  refine ⟨by decide, by decide, by decide⟩

/-- C5 amended.  If the source text itself ends in terminal punctuation
and its word count is within the (positive) budget, the distilled output
ends in terminal punctuation. -/
theorem distill_endsTerm_of_short (transcript : Str) (k : Nat)
    (hk : 1 ≤ k) (hwc : wordCount transcript ≤ k)
    (hend : endsTerm transcript = true) :
    endsTerm (legacyCreateVoiceoverScript transcript k) = true := by
  rw [legacy_identity_of_le transcript k hwc]
  exact hend

/-- Witness for the amended C5 at a one-word transcript ending in a
period. -/
theorem distill_endsTerm_of_short_witness :
    endsTerm (legacyCreateVoiceoverScript exEndsTermStr 1) = true :=
  distill_endsTerm_of_short exEndsTermStr 1 (le_refl 1) (by decide) (by decide)

theorem buildAtempoChain_one (m : Nat) : buildAtempoChain m 1 = [] := by
  cases m <;> simp [buildAtempoChain]

/-- Stage bounds and exact product of the speed-up decomposition, for
any fuel large enough to cover the factor. -/
theorem buildAtempoChain_spec (fuel : Nat) (f : ℚ) (h1 : 1 < f)
    (h2 : f ≤ 2 ^ fuel) :
    (∀ s ∈ buildAtempoChain fuel f, 1 < s ∧ s ≤ 2) ∧
      (buildAtempoChain fuel f).prod = f := by
  induction fuel generalizing f with
  | zero =>
    simp only [pow_zero] at h2
    exact absurd (lt_of_lt_of_le h1 h2) (lt_irrefl 1)
  | succ n ih =>
    rw [buildAtempoChain, if_pos h1]
    by_cases hf2 : f ≤ 2
    · have hmin : min f 2 = f := min_eq_left hf2
      have hf0 : f ≠ 0 := ne_of_gt (lt_trans zero_lt_one h1)
      rw [hmin, div_self hf0, buildAtempoChain_one]
      constructor
      · intro s hs
        rcases List.mem_singleton.mp hs with rfl
        exact ⟨h1, hf2⟩
      · simp
    · push_neg at hf2
      have hmin : min f 2 = 2 := min_eq_right (le_of_lt hf2)
      rw [hmin]
      have hhalf1 : 1 < f / 2 := by
        rw [lt_div_iff (by norm_num : (0:ℚ) < 2)]
        linarith
      have hhalf2 : f / 2 ≤ 2 ^ n := by
        rw [div_le_iff (by norm_num : (0:ℚ) < 2)]
        calc f ≤ 2 ^ (n + 1) := h2
          _ = 2 ^ n * 2 := by rw [pow_succ]
      obtain ⟨ihm, ihp⟩ := ih (f / 2) hhalf1 hhalf2
      constructor
      · intro s hs
        rcases List.mem_cons.mp hs with rfl | hs
        · exact ⟨one_lt_two, le_refl 2⟩
        · exact ihm s hs
      · rw [List.prod_cons, ihp]
        ring

theorem buildAtempoChain_cons (m : Nat) (g : ℚ) (hg : 1 < g) :
    buildAtempoChain (m + 1) g =
      min g 2 :: buildAtempoChain m (g / min g 2) := by
  rw [buildAtempoChain, if_pos hg]

/-- C1.  For durations whose tempo factor (current over target) exceeds
two, the extreme speed-up path of the Duration Matcher computes a chain
of atempo stages in which every stage factor lies in the half-open
interval above one and at most two, whose product is exactly the tempo
factor, and which has at least two stages (so in particular for tempo
factor three).  The fuel hypothesis only asks for enough loop iterations
to cover the factor. -/
theorem extreme_speedup_chain (currentDuration targetDuration : ℚ)
    (fuel : Nat) (hfast : 2 < currentDuration / targetDuration)
    (hfuel : currentDuration / targetDuration ≤ 2 ^ fuel) :
    (∀ s ∈ buildAtempoChain fuel (currentDuration / targetDuration),
        1 < s ∧ s ≤ 2) ∧
    (buildAtempoChain fuel (currentDuration / targetDuration)).prod =
      currentDuration / targetDuration ∧
    2 ≤ (buildAtempoChain fuel (currentDuration / targetDuration)).length := by
  set f := currentDuration / targetDuration with hfdef
  have h1 : 1 < f := lt_trans one_lt_two hfast
  obtain ⟨hmem, hprod⟩ := buildAtempoChain_spec fuel f h1 hfuel
  refine ⟨hmem, hprod, ?_⟩
  cases fuel with
  | zero =>
    exfalso
    simp only [pow_zero] at hfuel
    linarith
  | succ n =>
    cases n with
    | zero =>
      exfalso
      norm_num at hfuel
      linarith
    | succ m =>
      rw [buildAtempoChain_cons _ _ h1]
      have hmin : min f 2 = 2 := min_eq_right (le_of_lt hfast)
      rw [hmin]
      have hhalf1 : 1 < f / 2 := by
        rw [lt_div_iff (by norm_num : (0:ℚ) < 2)]
        linarith
      rw [buildAtempoChain_cons _ _ hhalf1]
      simp

/-- Witness for C1 at current twelve seconds, target four seconds, tempo
factor three, two loop iterations. -/
theorem extreme_speedup_chain_witness :
    (2 < (12 : ℚ) / 4) ∧
    ((buildAtempoChain 2 ((12 : ℚ) / 4)).prod = (12 : ℚ) / 4 ∧
      2 ≤ (buildAtempoChain 2 ((12 : ℚ) / 4)).length) :=
  ⟨by norm_num,
    (extreme_speedup_chain 12 4 2 (by norm_num) (by norm_num)).2⟩

/-- C2.  For durations with a positive tempo factor below one half, the
extreme slow-down path with all transforms succeeding concatenates the
original audio with a silence segment of exactly half the target
duration and applies a single tempo transform whose factor is the tempo
factor plus one half, which lies strictly between one half and one. -/
theorem extreme_slowdown_plan (env : Nat → Bool) (fuel : Nat)
    (threshold currentDuration targetDuration : ℚ)
    (hthr : threshold ≤ mathAbs (currentDuration - targetDuration))
    (hcur : 0 < currentDuration) (htgt : 0 < targetDuration)
    (hslow : currentDuration / targetDuration < 1 / 2)
    (henv : ∀ i, env i = true) :
    adjustVoiceoverDuration env fuel threshold currentDuration
        targetDuration =
      Audio.atempo (currentDuration / targetDuration + 1 / 2)
        (Audio.concatA Audio.original
          (Audio.silence (targetDuration * (1 / 2)))) ∧
    1 / 2 < currentDuration / targetDuration + 1 / 2 ∧
    currentDuration / targetDuration + 1 / 2 < 1 := by
  have hf : 0 < currentDuration / targetDuration := div_pos hcur htgt
  refine ⟨?_, by linarith, by linarith⟩
  have htgtne : targetDuration ≠ 0 := ne_of_gt htgt
  have harg : (currentDuration + targetDuration * (1 / 2)) / targetDuration =
      currentDuration / targetDuration + 1 / 2 := by
    rw [add_div, mul_comm targetDuration ((1 : ℚ) / 2), mul_div_assoc,
      div_self htgtne, mul_one]
  have hc0 : ¬ mathAbs (currentDuration - targetDuration) < threshold :=
    not_lt.mpr hthr
  have hno1 : ¬ (9 / 10 ≤ currentDuration / targetDuration ∧
      currentDuration / targetDuration ≤ 11 / 10) := by
    intro h
    linarith [h.1]
  have hno2 : ¬ (1 / 2 ≤ currentDuration / targetDuration ∧
      currentDuration / targetDuration ≤ 2) := by
    intro h
    linarith [h.1]
  unfold adjustVoiceoverDuration
  rw [if_neg hc0]
  simp only []
  rw [if_neg hno1, if_neg hno2, if_pos hslow, henv 0, henv 1, henv 2]
  simp only [Bool.and_self, if_true]
  rw [harg]

/-- Witness for C2 at current one second, target four seconds, tempo
factor one quarter, all transforms succeeding. -/
theorem extreme_slowdown_plan_witness :
    adjustVoiceoverDuration allOkEnv 0 (1 / 10) 1 4 =
      Audio.atempo ((1 : ℚ) / 4 + 1 / 2)
        (Audio.concatA Audio.original (Audio.silence ((4 : ℚ) * (1 / 2)))) ∧
    (1 : ℚ) / 2 < 1 / 4 + 1 / 2 ∧ (1 : ℚ) / 4 + 1 / 2 < 1 :=
  extreme_slowdown_plan allOkEnv 0 (1 / 10) 1 4
    (by norm_num [mathAbs]) (by norm_num) (by norm_num) (by norm_num)
    (fun _ => rfl)

/-- C8 counterexample.  With the chained extreme-stretch spawn failing
and the inner-catch fallback spawn succeeding, the Duration Matcher
returns a clamped single-stage tempo transform of the original, not a
copy of the unmodified original asset. -/
theorem transform_failure_counterexample :
    adjustVoiceoverDuration chainFailEnv 2 (1 / 10) 12 4 =
      Audio.atempo 2 Audio.original ∧
    Audio.atempo 2 Audio.original ≠ Audio.original ∧
    chainFailEnv 0 = false := by
  refine ⟨?_, by simp, rfl⟩
  norm_num [adjustVoiceoverDuration, chainFailEnv, clampTempo, mathAbs,
    min_def, max_def]

/-- C8 amended.  The Duration Matcher never propagates a transform
failure.  When the single-stage minor or moderate transform fails, it
falls back to a copy of the unmodified original.  When an extreme-path
transform fails, it first retries with a single clamped tempo transform
(factor clamped into the stable range), and only when that retry also
fails does it fall back to the copy of the unmodified original. -/
theorem transform_failure_fallback (env : Nat → Bool) (fuel : Nat)
    (threshold currentDuration targetDuration : ℚ)
    (hthr : threshold ≤ mathAbs (currentDuration - targetDuration)) :
    ((9 / 10 ≤ currentDuration / targetDuration ∧
        currentDuration / targetDuration ≤ 11 / 10) ∨
      (1 / 2 ≤ currentDuration / targetDuration ∧
        currentDuration / targetDuration ≤ 2) →
      env 0 = false →
      adjustVoiceoverDuration env fuel threshold currentDuration
          targetDuration =
        Audio.original) ∧
    (currentDuration / targetDuration < 1 / 2 →
      (env 0 = false ∨ env 1 = false ∨ env 2 = false) →
      adjustVoiceoverDuration env fuel threshold currentDuration
          targetDuration =
        if env 3 then Audio.atempo (1 / 2) Audio.original
        else Audio.original) ∧
    (2 < currentDuration / targetDuration →
      env 0 = false →
      adjustVoiceoverDuration env fuel threshold currentDuration
          targetDuration =
        if env 1 then Audio.atempo 2 Audio.original
        else Audio.original) := by
  have hc0 : ¬ mathAbs (currentDuration - targetDuration) < threshold :=
    not_lt.mpr hthr
  refine ⟨?_, ?_, ?_⟩
  · intro hrange h0
    unfold adjustVoiceoverDuration
    rw [if_neg hc0]
    simp only []
    rcases hrange with h | h
    · rw [if_pos h, h0]
      simp
    · by_cases hminor : 9 / 10 ≤ currentDuration / targetDuration ∧
          currentDuration / targetDuration ≤ 11 / 10
      · rw [if_pos hminor, h0]
        simp
      · rw [if_neg hminor, if_pos h, h0]
        simp
  · intro hf henvfail
    have hno1 : ¬ (9 / 10 ≤ currentDuration / targetDuration ∧
        currentDuration / targetDuration ≤ 11 / 10) := by
      intro h
      linarith [h.1]
    have hno2 : ¬ (1 / 2 ≤ currentDuration / targetDuration ∧
        currentDuration / targetDuration ≤ 2) := by
      intro h
      linarith [h.1]
    have hclamp : clampTempo (currentDuration / targetDuration) = 1 / 2 := by
      unfold clampTempo
      rw [min_eq_left (by linarith), max_eq_left (le_of_lt hf)]
    have henv0 : (env 0 && env 1 && env 2) = false := by
      rcases henvfail with h | h | h <;> simp [h]
    unfold adjustVoiceoverDuration
    rw [if_neg hc0]
    simp only []
    rw [if_neg hno1, if_neg hno2, if_pos hf, henv0, hclamp]
    simp
  · intro hf h0
    have hno1 : ¬ (9 / 10 ≤ currentDuration / targetDuration ∧
        currentDuration / targetDuration ≤ 11 / 10) := by
      intro h
      linarith [h.2]
    have hno2 : ¬ (1 / 2 ≤ currentDuration / targetDuration ∧
        currentDuration / targetDuration ≤ 2) := by
      intro h
      linarith [h.2]
    have hno3 : ¬ currentDuration / targetDuration < 1 / 2 :=
      not_lt.mpr (by linarith)
    have hclamp : clampTempo (currentDuration / targetDuration) = 2 := by
      unfold clampTempo
      rw [min_eq_right (le_of_lt hf), max_eq_right (by norm_num)]
    unfold adjustVoiceoverDuration
    rw [if_neg hc0]
    simp only []
    rw [if_neg hno1, if_neg hno2, if_neg hno3, h0, hclamp]
    simp

/-- Witness for the amended C8: a failing moderate-range transform falls
back to the copy of the original. -/
theorem transform_failure_fallback_witness :
    adjustVoiceoverDuration (fun _ => false) 0 (1 / 10) 3 2 =
      Audio.original :=
  (transform_failure_fallback (fun _ => false) 0 (1 / 10) 3 2
      (by norm_num [mathAbs])).1
    (Or.inr (by norm_num)) rfl

/-- C6.  Over all eight combinations of narration presence, soundtrack
presence and the remove-audio flag, the montage builder selects exactly
one of the five topologies according to the table, and in the
narration-plus-soundtrack case the selected amix mode is longest, whose
output duration is the maximum of the two input durations. -/
theorem mix_topology_table (hasNarration hasSoundtrack removeAudio : Bool)
    (narrationVolume soundtrackVolume : ℚ) :
    (hasNarration = true → hasSoundtrack = true →
      selectMixTopology hasNarration hasSoundtrack removeAudio
          narrationVolume soundtrackVolume =
        MixTopology.narrationSoundtrackMix narrationVolume soundtrackVolume
          AmixDurationMode.longest) ∧
    (hasNarration = true → hasSoundtrack = false →
      selectMixTopology hasNarration hasSoundtrack removeAudio
          narrationVolume soundtrackVolume =
        MixTopology.narrationOnly narrationVolume) ∧
    (hasNarration = false → hasSoundtrack = true →
      selectMixTopology hasNarration hasSoundtrack removeAudio
          narrationVolume soundtrackVolume =
        MixTopology.soundtrackOnly soundtrackVolume) ∧
    (hasNarration = false → hasSoundtrack = false → removeAudio = false →
      selectMixTopology hasNarration hasSoundtrack removeAudio
          narrationVolume soundtrackVolume =
        MixTopology.originalAudioPassThrough) ∧
    (hasNarration = false → hasSoundtrack = false → removeAudio = true →
      selectMixTopology hasNarration hasSoundtrack removeAudio
          narrationVolume soundtrackVolume =
        MixTopology.silentVideoOnly) ∧
    (∀ narrationDuration soundtrackDuration : ℚ,
      amixOutputDuration AmixDurationMode.longest narrationDuration
          soundtrackDuration =
        max narrationDuration soundtrackDuration) := by
  cases hasNarration <;> cases hasSoundtrack <;> cases removeAudio <;>
    simp [selectMixTopology, amixOutputDuration]

/-- Witness for C6: narration and soundtrack both present select the
longest-duration mix, and the longest mode takes the maximum
duration. -/
theorem mix_topology_table_witness :
    selectMixTopology true true false 1 (1 / 2) =
      MixTopology.narrationSoundtrackMix 1 (1 / 2)
        AmixDurationMode.longest ∧
    amixOutputDuration AmixDurationMode.longest 3 5 = 5 := by
  refine ⟨(mix_topology_table true true false 1 (1 / 2)).1 rfl rfl, ?_⟩
  rw [(mix_topology_table true true false 1 (1 / 2)).2.2.2.2.2 3 5]
  norm_num

/-- C7.  calculateTargetWordCount is the floor of duration times
speaking rate times buffer factor, where the rate is the per-voice
configured rate with the global default fallback, and the buffer factor
is ninety-five hundredths for durations at most ten seconds,
ninety-nine hundredths above thirty seconds, and the configured default
in between. -/
theorem calc_target_word_count_spec (cfg : TTSConfig) (d : ℚ) (v : String) :
    (∀ r, cfg.speakingRates v = some r → r ≠ 0 →
      lookupSpeakingRate cfg v = r) ∧
    (cfg.speakingRates v = none →
      lookupSpeakingRate cfg v = cfg.defaultSpeakingRate) ∧
    (d ≤ 10 → calculateTargetWordCount cfg d v =
      ⌊d * lookupSpeakingRate cfg v * (95 / 100)⌋) ∧
    (30 < d → calculateTargetWordCount cfg d v =
      ⌊d * lookupSpeakingRate cfg v * (99 / 100)⌋) ∧
    (10 < d → d ≤ 30 → calculateTargetWordCount cfg d v =
      ⌊d * lookupSpeakingRate cfg v * cfg.wordCountBufferFactor⌋) := by
  refine ⟨?_, ?_, ?_, ?_, ?_⟩
  · intro r hsome hr
    unfold lookupSpeakingRate
    rw [hsome]
    simp [hr]
  · intro hnone
    unfold lookupSpeakingRate
    rw [hnone]
  · intro h
    unfold calculateTargetWordCount
    simp only []
    rw [if_pos h]
  · intro h
    unfold calculateTargetWordCount
    simp only []
    rw [if_neg (by linarith : ¬ d ≤ 10), if_pos h]
  · intro h1 h2
    unfold calculateTargetWordCount
    simp only []
    rw [if_neg (by linarith : ¬ d ≤ 10), if_neg (not_lt.mpr h2)]

/-- Witness for C7: five seconds of the openai alloy voice at rate 2.9
with the short-duration buffer 0.95 gives a budget of thirteen words. -/
theorem calc_target_word_count_spec_witness :
    calculateTargetWordCount exampleTTSConfig 5 "openai_alloy" = 13 := by
  rw [(calc_target_word_count_spec exampleTTSConfig 5 "openai_alloy").2.2.1
    (by norm_num)]
  have hrate : lookupSpeakingRate exampleTTSConfig "openai_alloy" = 29 / 10 := by
    norm_num [lookupSpeakingRate, exampleTTSConfig]
  rw [hrate]
  have : (5 : ℚ) * (29 / 10) * (95 / 100) = 551 / 40 := by norm_num
  rw [this, Int.floor_eq_iff]
  constructor <;> norm_num

/-- C9.  The duration probe is a total function of the subprocess
result: it yields null exactly when the subprocess errored, wrote
anything to stderr, or produced stdout whose trimmed text does not parse
as a number; otherwise it yields the parsed duration.  The promise
resolves on every path and never rejects, which the embedding reflects
by being a total function into an option. -/
theorem probe_null_contract (r : ExecResult) :
    (getAudioDuration r = none ↔
      r.err = true ∨ r.stderr ≠ [] ∨
        jsParseFloat (trimStr r.stdout) = none) ∧
    (∀ d, r.err = false → r.stderr = [] →
      jsParseFloat (trimStr r.stdout) = some d →
      getAudioDuration r = some d) := by
  unfold getAudioDuration
  cases he : r.err with
  | true => simp [he]
  | false =>
    cases hstd : r.stderr with
    | cons a l => simp [hstd]
    | nil =>
      cases hp : jsParseFloat (trimStr r.stdout) with
      | none => simp [hstd, hp]
      | some d =>
        simp only [hstd, List.isEmpty_nil, Bool.not_true, Bool.or_false,
          Bool.false_eq_true, if_false, hp]
        constructor
        · simp
        · intro d2 _ _ h
          exact h

/-- Witness for C9: a clean probe of a stdout of twelve point five
seconds yields that duration. -/
theorem probe_null_contract_witness :
    getAudioDuration (ExecResult.mk false ("12.5".toList) []) =
      some (25 / 2) :=
  (probe_null_contract (ExecResult.mk false ("12.5".toList) [])).2
    (25 / 2) rfl rfl
    (by
      have htrim : trimStr ("12.5".toList) = "12.5".toList := by decide
      rw [htrim]
      simp +decide [jsParseFloat, digitsToNat]
      norm_num)

/-- C10 counterexample.  The tts-service spawn wrapper, through which
every audio transform of the Duration Matcher runs, registers no kill
timer at all, so it is false that every media-transform subprocess
invocation carries a two-minute timeout that rejects the stage. -/
theorem spawn_timeout_counterexample :
    (ttsSpawnFFmpeg ∈ mediaTransformWrappers ∧
      ttsSpawnFFmpeg.timeoutMs = none ∧
      ttsSpawnFFmpeg.settle FFmpegEvent.timerFire = none) ∧
    ¬ ∀ w ∈ mediaTransformWrappers,
        w.timeoutMs = some 120000 ∧
        w.settle FFmpegEvent.timerFire = some SpawnOutcome.reject := by
  constructor
  · exact ⟨by simp [mediaTransformWrappers], rfl, rfl⟩
  · intro h
    have hts := h ttsSpawnFFmpeg (by simp [mediaTransformWrappers])
    have : (none : Option Nat) = some 120000 := hts.1
    exact Option.noConfusion this

/-- C10 amended.  The video-side spawn wrapper registers a hard
two-minute (120000 millisecond) timeout on whose firing the process is
killed and the promise rejects, and both wrappers resolve on a clean
close and reject on a nonzero exit or a process error; the tts-service
spawn wrapper used for the audio transforms registers no timeout, so a
hung audio transform is never killed by the pipeline. -/
theorem spawn_timeout_amended :
    videoSpawnFFmpeg.timeoutMs = some 120000 ∧
    videoSpawnFFmpeg.settle FFmpegEvent.timerFire =
      some SpawnOutcome.reject ∧
    ttsSpawnFFmpeg.timeoutMs = none ∧
    ttsSpawnFFmpeg.settle FFmpegEvent.timerFire = none ∧
    ttsSpawnFFmpeg.settle (FFmpegEvent.close 0) =
      some SpawnOutcome.resolve ∧
    videoSpawnFFmpeg.settle (FFmpegEvent.close 0) =
      some SpawnOutcome.resolve ∧
    ttsSpawnFFmpeg.settle (FFmpegEvent.close 1) =
      some SpawnOutcome.reject ∧
    videoSpawnFFmpeg.settle (FFmpegEvent.close 1) =
      some SpawnOutcome.reject ∧
    ttsSpawnFFmpeg.settle FFmpegEvent.procError =
      some SpawnOutcome.reject ∧
    videoSpawnFFmpeg.settle FFmpegEvent.procError =
      some SpawnOutcome.reject :=
  ⟨rfl, rfl, rfl, rfl, rfl, rfl, rfl, rfl, rfl, rfl⟩

end ReelGen
